import Mathlib

/-!
Verification of the aggregation core of the HIFI_Scrapers_Terminal repository
(`audio_search.py`): source selection, concurrent dispatch-and-collect,
date normalization, recency filter and global sorter.

Shallow embedding conventions:
* Python `datetime` values are modelled as `Int` seconds relative to the Unix
  epoch (proleptic Gregorian calendar, second granularity, naive local time).
  `datetime.MINYEAR = 1` / `MAXYEAR = 9999` bounds are modelled explicitly;
  a `datetime` arithmetic result outside those bounds raises `OverflowError`,
  modelled by `Except Unit`.  The `datetime(y, m, d)` constructor's
  `ValueError` on calendar-invalid components is modelled by `Option`
  (it is caught by `except ValueError` in the source wherever it can occur).
* Python strings are modelled as `List Char`; `.lower()`, `.strip()`,
  `.split()` and substring tests are embedded for the ASCII + Latin-1 range.
* The regular expressions of `parse_date` are embedded as leftmost-match
  scanners reproducing the backtracking behaviour of each concrete pattern.
* The concurrent orchestrator is embedded by abstracting one adapter run as a
  completed outcome (results, raised exception, or deadline exceeded); the
  collection loop of `search_all` is a fold over those outcomes.
-/

namespace AudioSearch

/-! ### Python string primitives -/

/-- Whitespace characters recognised by `str.strip`, `str.split` and `\s`
(ASCII range; the embedding restricts Unicode whitespace to these). -/
def pyIsSpace (c : Char) : Bool :=
  c = ' ' || c = '\t' || c = '\n' || c = '\r' || c = '\x0b' || c = '\x0c'

def isAsciiDigit (c : Char) : Bool := '0' ≤ c && c ≤ '9'

/-- The character class `[a-z]` after lowering (used for the month-name
pattern, which is compiled with `re.I`). -/
def isLowerAlpha (c : Char) : Bool := 'a' ≤ c && c ≤ 'z'

/-- `str.lower` on one character, for the ASCII and Latin-1 letters that can
occur in the source's date phrases (A–Z, and À–Þ except ×). -/
def pyLowerChar (c : Char) : Char :=
  if 'A' ≤ c && c ≤ 'Z' then Char.ofNat (c.toNat + 32)
  else if 0xC0 ≤ c.toNat && c.toNat ≤ 0xDE && c.toNat ≠ 0xD7 then
    Char.ofNat (c.toNat + 32)
  else c

def pyLower (l : List Char) : List Char := l.map pyLowerChar

/-- `str.strip()`: drop leading and trailing whitespace. -/
def pyStripL (l : List Char) : List Char :=
  ((l.dropWhile pyIsSpace).reverse.dropWhile pyIsSpace).reverse

def toL (s : String) : List Char := s.data

def pyStripS (s : String) : String := String.mk (pyStripL s.data)

/-- Python's `needle in hay` substring test. -/
def isSubstr (needle : List Char) : List Char → Bool
  | [] => needle.isEmpty
  | c :: t => needle.isPrefixOf (c :: t) || isSubstr needle t

/-- Accumulator loop for `str.split()`: `acc` holds the current word,
reversed. -/
def pySplitAux : List Char → List Char → List (List Char)
  | [], acc => if acc.isEmpty then [] else [acc.reverse]
  | c :: t, acc =>
    if pyIsSpace c then
      if acc.isEmpty then pySplitAux t [] else acc.reverse :: pySplitAux t []
    else pySplitAux t (c :: acc)

/-- `str.split()` with no argument: split on whitespace runs, no empties. -/
def pySplitL (l : List Char) : List (List Char) := pySplitAux l []

def pySplit (s : String) : List String := (pySplitL s.data).map String.mk

def natOfDigits (l : List Char) : Nat :=
  l.foldl (fun a c => a * 10 + (c.toNat - 48)) 0

/-! ### Calendar arithmetic (Python `datetime`, second granularity) -/

def isLeap (y : Int) : Bool := y % 4 = 0 && (y % 100 ≠ 0 || y % 400 = 0)

def daysInMonth (y m : Int) : Int :=
  if m = 2 then (if isLeap y then 29 else 28)
  else if m = 4 || m = 6 || m = 9 || m = 11 then 30
  else 31

/-- The validity check performed by the `datetime(year, month, day)`
constructor (raises `ValueError` when false). -/
def validYMD (y m d : Int) : Bool :=
  1 ≤ y && y ≤ 9999 && 1 ≤ m && m ≤ 12 && 1 ≤ d && d ≤ daysInMonth y m

/-- Days from 1970-01-01 of a civil date (proleptic Gregorian). -/
def daysFromCivil (y m d : Int) : Int :=
  let y' := if m ≤ 2 then y - 1 else y
  let era := Int.fdiv y' 400
  let yoe := y' - era * 400
  let mp := Int.fmod (m + 9) 12
  let doy := Int.fdiv (153 * mp + 2) 5 + d - 1
  let doe := yoe * 365 + Int.fdiv yoe 4 - Int.fdiv yoe 100 + doy
  era * 146097 + doe - 719468

/-- Civil date `(y, m, d)` of a day count from 1970-01-01 (inverse of
`daysFromCivil`). -/
def civilFromDays (z : Int) : Int × Int × Int :=
  let z' := z + 719468
  let era := Int.fdiv z' 146097
  let doe := z' - era * 146097
  let yoe := Int.fdiv (doe - Int.fdiv doe 1460 + Int.fdiv doe 36524 -
    Int.fdiv doe 146096) 365
  let y := yoe + era * 400
  let doy := doe - (365 * yoe + Int.fdiv yoe 4 - Int.fdiv yoe 100)
  let mp := Int.fdiv (5 * doy + 2) 153
  let d := doy - Int.fdiv (153 * mp + 2) 5 + 1
  let m := mp + (if mp < 10 then 3 else -9)
  (y + (if m ≤ 2 then 1 else 0), m, d)

/-- Midnight of year/month/day, as epoch seconds (`datetime(y, m, d)`). -/
def mkDT (y m d : Int) : Int := daysFromCivil y m d * 86400

/-- `.year` of a datetime given as epoch seconds. -/
def yearOf (t : Int) : Int := (civilFromDays (Int.fdiv t 86400)).1

/-- `.replace(hour=0, minute=0, second=0, microsecond=0)`. -/
def truncDay (t : Int) : Int := Int.fdiv t 86400 * 86400

/-- First representable second (`datetime.min`, year 1). -/
def pyMinDT : Int := mkDT 1 1 1

/-- Last representable second (`datetime.max`, year 9999). -/
def pyMaxDT : Int := mkDT 9999 12 31 + 86399

/-- `now - timedelta(seconds = delta)`: raises `OverflowError` when the
result leaves the representable `datetime` range (this also covers the
`timedelta` constructor's own magnitude bound, which can only fire when the
subtraction result would be far out of range anyway). -/
def pySubCheck (t delta : Int) : Except Unit Int :=
  if pyMinDT ≤ t - delta && t - delta ≤ pyMaxDT then .ok (t - delta)
  else .error ()

/-- `datetime(y, m, d)`: `none` models the `ValueError` raised on
calendar-invalid components. -/
def pyDatetime (y m d : Int) : Option Int :=
  if validYMD y m d then some (mkDT y m d) else none

/-! ### Leftmost-match scanners for the `parse_date` regular expressions -/

/-- `re.search`: try the position matcher at each start position, leftmost
match first. -/
def scanFirst (f : List Char → Option α) : List Char → Option α
  | [] => f []
  | c :: t =>
    match f (c :: t) with
    | some r => some r
    | none => scanFirst f t

/-- Split off the maximal run of characters satisfying `p`. -/
def spanP (p : Char → Bool) (l : List Char) : List Char × List Char :=
  (l.takeWhile p, l.dropWhile p)

/-- Consume exactly `n` characters satisfying `p`. -/
def takeN (p : Char → Bool) : Nat → List Char → Option (List Char × List Char)
  | 0, l => some ([], l)
  | _ + 1, [] => none
  | n + 1, c :: t =>
    if p c then (takeN p n t).map (fun pr => (c :: pr.1, pr.2)) else none

/-- Consume a literal word (the scanned text is already lowercased, so a
case-sensitive comparison embeds the `re.I` literals). -/
def litP (w : List Char) (l : List Char) : Option (List Char) :=
  if w.isPrefixOf l then some (l.drop w.length) else none

/-- Position matcher for `(\d+)\s+(unit|unit s?)\s+ago` (with `unit` one of
`day`, `hour`, `week`); returns the captured count. -/
def atUnitAgo (unit : List Char) (l : List Char) : Option Nat :=
  let (ds, r) := spanP isAsciiDigit l
  if ds.isEmpty then none
  else
    let (sp, r) := spanP pyIsSpace r
    if sp.isEmpty then none
    else
      match litP unit r with
      | none => none
      | some r =>
        let r := match r with
          | 's' :: t => t
          | _ => r
        let (sp2, r) := spanP pyIsSpace r
        if sp2.isEmpty then none
        else
          match litP (toL "ago") r with
          | none => none
          | some _ => some (natOfDigits ds)

def matchDaysAgo (l : List Char) : Option Nat := scanFirst (atUnitAgo (toL "day")) l
def matchHoursAgo (l : List Char) : Option Nat := scanFirst (atUnitAgo (toL "hour")) l
def matchWeeksAgo (l : List Char) : Option Nat := scanFirst (atUnitAgo (toL "week")) l

/-- Position matcher for `(\d{4})-(\d{2})-(\d{2})`. -/
def atISO (l : List Char) : Option (Nat × Nat × Nat) :=
  match takeN isAsciiDigit 4 l with
  | none => none
  | some (ys, r) =>
    match r with
    | '-' :: r =>
      match takeN isAsciiDigit 2 r with
      | none => none
      | some (ms, r) =>
        match r with
        | '-' :: r =>
          match takeN isAsciiDigit 2 r with
          | none => none
          | some (ds, _) => some (natOfDigits ys, natOfDigits ms, natOfDigits ds)
        | _ => none
    | _ => none

def matchISO (l : List Char) : Option (Nat × Nat × Nat) := scanFirst atISO l

/-- The tail of the month-name pattern after the day digits:
`\s+([a-z]{3})\.?\s*(?:,?\s*(\d{4}))?`; returns (month letters, year). -/
def atMonthTail (ds : List Char) (r : List Char) :
    Option (Nat × List Char × Option Nat) :=
  let (sp, r) := spanP pyIsSpace r
  if sp.isEmpty then none
  else
    match takeN isLowerAlpha 3 r with
    | none => none
    | some (mstr, r) =>
      let r := match r with
        | '.' :: t => t
        | _ => r
      let r := (spanP pyIsSpace r).2
      let y : Option Nat :=
        match r with
        | ',' :: r2 => (takeN isAsciiDigit 4 ((spanP pyIsSpace r2).2)).map
            (fun pr => natOfDigits pr.1)
        | _ => (takeN isAsciiDigit 4 r).map (fun pr => natOfDigits pr.1)
      some (natOfDigits ds, mstr, y)

/-- Position matcher for `(\d{1,2})\s+([a-z]{3})\.?\s*(?:,?\s*(\d{4}))?`
(greedy `{1,2}` with backtracking: two digits tried before one). -/
def atMonthPat (l : List Char) : Option (Nat × List Char × Option Nat) :=
  match l with
  | c1 :: c2 :: r =>
    if isAsciiDigit c1 then
      if isAsciiDigit c2 then
        match atMonthTail [c1, c2] r with
        | some v => some v
        | none => atMonthTail [c1] (c2 :: r)
      else atMonthTail [c1] (c2 :: r)
    else none
  | _ => none

def matchMonthPat (l : List Char) : Option (Nat × List Char × Option Nat) :=
  scanFirst atMonthPat l

/-- Month-name lookup: `swedish_months.get(m) or english_months.get(m)`. -/
def monthLookup (m : List Char) : Option Nat :=
  if m = toL "jan" then some 1 else if m = toL "feb" then some 2
  else if m = toL "mar" then some 3 else if m = toL "apr" then some 4
  else if m = toL "maj" then some 5 else if m = toL "jun" then some 6
  else if m = toL "jul" then some 7 else if m = toL "aug" then some 8
  else if m = toL "sep" then some 9 else if m = toL "okt" then some 10
  else if m = toL "nov" then some 11 else if m = toL "dec" then some 12
  else if m = toL "may" then some 5 else if m = toL "oct" then some 10
  else none

/-- Year tail of the slash pattern: `(\d{2,4})`, greedy (4, then 3, then 2
digits). -/
def slashYear (r : List Char) : Option Nat :=
  match takeN isAsciiDigit 4 r with
  | some (ys, _) => some (natOfDigits ys)
  | none =>
    match takeN isAsciiDigit 3 r with
    | some (ys, _) => some (natOfDigits ys)
    | none =>
      match takeN isAsciiDigit 2 r with
      | some (ys, _) => some (natOfDigits ys)
      | none => none

def isSlashSep (c : Char) : Bool := c = '/' || c = '-'

/-- After the day digits of the slash/dash numeric pattern: a slash-or-dash
separator, one or two month digits, another separator, then the year. -/
def atSlashTail (ds : List Char) (r : List Char) : Option (Nat × Nat × Nat) :=
  match r with
  | s1 :: r =>
    if isSlashSep s1 then
      let cont : List Char → List Char → Option (Nat × Nat × Nat) :=
        fun ms r2 =>
          match r2 with
          | s2 :: r3 =>
            if isSlashSep s2 then
              (slashYear r3).map (fun y => (natOfDigits ds, natOfDigits ms, y))
            else none
          | _ => none
      match r with
      | m1 :: m2 :: r2 =>
        if isAsciiDigit m1 then
          if isAsciiDigit m2 then
            match cont [m1, m2] r2 with
            | some v => some v
            | none => cont [m1] (m2 :: r2)
          else cont [m1] (m2 :: r2)
        else none
      | [m1] => if isAsciiDigit m1 then cont [m1] [] else none
      | [] => none
    else none
  | [] => none

/-- Position matcher for the slash/dash numeric date pattern: one or two day
digits, separator, one or two month digits, separator, two to four year
digits (greedy, with the backtracking of the original pattern). -/
def atSlash (l : List Char) : Option (Nat × Nat × Nat) :=
  match l with
  | c1 :: c2 :: r =>
    if isAsciiDigit c1 then
      if isAsciiDigit c2 then
        match atSlashTail [c1, c2] r with
        | some v => some v
        | none => atSlashTail [c1] (c2 :: r)
      else atSlashTail [c1] (c2 :: r)
    else none
  | [c1] => if isAsciiDigit c1 then atSlashTail [c1] [] else none
  | [] => none

def matchSlash (l : List Char) : Option (Nat × Nat × Nat) := scanFirst atSlash l

/-! ### `parse_date` -/

/-- The ISO family: leftmost `YYYY-MM-DD` match, `datetime` constructor,
`ValueError` falls through (`none`). -/
def isoResult (low : List Char) : Option Int :=
  match matchISO low with
  | some (y, m, d) => pyDatetime (Int.ofNat y) (Int.ofNat m) (Int.ofNat d)
  | none => none

/-- The day + abbreviated-month-name family; `none` both when the pattern
does not match, when the month abbreviation is unknown, and when the
`datetime` constructor raises `ValueError` (all fall through to the slash
family in the source). -/
def monthResult (now : Int) (low : List Char) : Option Int :=
  match matchMonthPat low with
  | none => none
  | some (d, mstr, yOpt) =>
    match monthLookup mstr with
    | none => none
    | some m =>
      match yOpt with
      | some y => pyDatetime (Int.ofNat y) (Int.ofNat m) (Int.ofNat d)
      | none =>
        let y := yearOf now
        match pyDatetime y (Int.ofNat m) (Int.ofNat d) with
        | none => none
        | some dt =>
          if dt > now then pyDatetime (y - 1) (Int.ofNat m) (Int.ofNat d)
          else some dt

/-- The slash/dash `D M Y` family; 2-digit years are shifted into the 2000s;
`ValueError` falls through to the final `return None`. -/
def slashResult (low : List Char) : Option Int :=
  match matchSlash low with
  | none => none
  | some (d, m, y) =>
    let y : Int := if (y : Int) < 100 then (y : Int) + 2000 else (y : Int)
    pyDatetime y (Int.ofNat m) (Int.ofNat d)

/-- The body of `parse_date` after the falsy check and the
`date_str = date_str.strip()` reassignment, taken over the lowercased
stripped text `low` (equivalent to running the `re.I` patterns and the
lowercased membership tests on the stripped original). -/
def parseStripped (now : Int) (low : List Char) : Except Unit (Option Int) :=
  if isSubstr (toL "just now") low || isSubstr (toL "nu") low then
      .ok (some now)
    else if isSubstr (toL "idag") low || isSubstr (toL "today") low then
      .ok (some (truncDay now))
    else if isSubstr (toL "igÃ¥r") low || isSubstr (toL "yesterday") low then
      match pySubCheck now 86400 with
      | .ok r => .ok (some (truncDay r))
      | .error e => .error e
    else
      match matchDaysAgo low with
      | some n =>
        match pySubCheck now (Int.ofNat n * 86400) with
        | .ok r => .ok (some (truncDay r))
        | .error e => .error e
      | none =>
        match matchHoursAgo low with
        | some n =>
          match pySubCheck now (Int.ofNat n * 3600) with
          | .ok r => .ok (some r)
          | .error e => .error e
        | none =>
          match matchWeeksAgo low with
          | some n =>
            match pySubCheck now (Int.ofNat n * 604800) with
            | .ok r => .ok (some (truncDay r))
            | .error e => .error e
          | none =>
            match isoResult low with
            | some dt => .ok (some dt)
            | none =>
              match monthResult now low with
              | some dt => .ok (some dt)
              | none => .ok (slashResult low)

/-- `parse_date(date_str)` of `audio_search.py`, with the implicit
`datetime.now()` made an explicit `now` parameter.  `Except.error` models an
uncaught exception (`OverflowError` from datetime arithmetic); `.ok none`
is the unparseable sentinel `None`. -/
def parse_date (now : Int) (s : String) : Except Unit (Option Int) :=
  if s = "" then .ok none
  else parseStripped now (pyLower (pyStripL (toL s)))

/-! ### Data model -/

/-- Modelled from the spec: the `Listing` record produced by the adapters
(`ListingResult` of the missing `base.py`; only declared and consumed, never
defined, under `src/`).  Field names follow the constructor calls in
`hifitorget.py`; the spec's "optional non-negative number" price is modelled
as an optional integer (its value is never interpreted by the core). -/
structure ListingResult where
  title : String
  price : Option Int
  url : String
  image_url : Option String
  posted_date : Option String
  location : Option String
  description : Option String
deriving DecidableEq, Repr

/-- Python truthiness test `not x` for an optional string field. -/
def pyFalsyStr : Option String → Bool
  | none => true
  | some s => s = ""

/-! ### Source registry and selector (`AudioSearch.__init__`) -/

/-- Registry names, in construction order. -/
def registryNames : List String :=
  ["Blocket", "Tradera", "Facebook Marketplace", "HifiTorget"]

/-- `match_site_name`: case-insensitive exact match, or equality with one
whitespace-delimited word of the scraper name. -/
def match_site_name (user_input scraper_name : String) : Bool :=
  let u := String.mk (pyLower (toL user_input))
  let s := String.mk (pyLower (toL scraper_name))
  u == s || (pySplit s).contains u

/-- The include-list branch: for each token, the first registry entry that
matches and is not yet selected is appended (unmatched tokens only produce a
warning). -/
def resolveInclude (registry : List String) (includeSites : List String) :
    List String :=
  includeSites.foldl (fun acc site =>
    match registry.find? (fun n => match_site_name site n && !(acc.contains n)) with
    | some n => acc ++ [n]
    | none => acc) []

/-- The exclude-list branch: each token adds the first matching registry
entry to the excluded set; the active list is the registry minus that set,
in registry order. -/
def resolveExclude (registry : List String) (excludeSites : List String) :
    List String :=
  let excluded := excludeSites.foldl (fun acc site =>
    match registry.find? (fun n => match_site_name site n) with
    | some n => if acc.contains n then acc else acc ++ [n]
    | none => acc) []
  registry.filter (fun n => !(excluded.contains n))

/-! ### Aggregation orchestrator (`AudioSearch.search_all`) -/

/-- The completed outcome of one adapter's concurrent task, as observed by
the collection loop: a result list from `await asyncio.wait_for`, an
`asyncio.TimeoutError`, or any other exception. -/
inductive SOutcome where
  | ok (rs : List ListingResult)
  | exn
  | timeout
deriving DecidableEq

/-- The collection loop's handling of one task: failures and timeouts
degrade to an empty sequence. -/
def collectOutcome : SOutcome → List ListingResult
  | .ok rs => rs
  | .exn => []
  | .timeout => []

/-- `search_all`: a blank query returns the empty mapping before any task is
created; otherwise every scraper's task is awaited in order and recorded
under the scraper's name.  A scraper is a name paired with the outcome its
task completes with for a given (stripped) query. -/
def search_all (scrapers : List (String × (String → SOutcome))) (query : String) :
    List (String × List ListingResult) :=
  if pyStripS query = "" then []
  else scrapers.map (fun p => (p.1, collectOutcome (p.2 (pyStripS query))))

/-! ### Recency filter (`filter_by_days`) -/

/-- The per-listing keep decision of the filter loop; propagates an
exception raised by `parse_date`. -/
def keepListing (now cutoff : Int) (l : ListingResult) : Except Unit Bool :=
  if pyFalsyStr l.posted_date then .ok true
  else
    match parse_date now (l.posted_date.getD "") with
    | .error e => .error e
    | .ok none => .ok true
    | .ok (some d) => .ok (decide (d ≥ cutoff))

/-- The inner loop over one source's listings. -/
def filterListings (now cutoff : Int) : List ListingResult →
    Except Unit (List ListingResult)
  | [] => .ok []
  | x :: xs =>
    match keepListing now cutoff x with
    | .error e => .error e
    | .ok b =>
      match filterListings now cutoff xs with
      | .error e => .error e
      | .ok rest => .ok (if b then x :: rest else rest)

/-- The outer loop over the source mapping (insertion-ordered). -/
def filterSources (now cutoff : Int) : List (String × List ListingResult) →
    Except Unit (List (String × List ListingResult))
  | [] => .ok []
  | (name, ls) :: rest =>
    match filterListings now cutoff ls with
    | .error e => .error e
    | .ok kept =>
      match filterSources now cutoff rest with
      | .error e => .error e
      | .ok rest' => .ok ((name, kept) :: rest')

/-- `filter_by_days(results, days_back)`, with the implicit `datetime.now()`
made explicit.  `days_back <= 0` returns the input untouched before any date
arithmetic; otherwise `cutoff = now - timedelta(days=days_back)` (which can
raise `OverflowError`) and each source's listings are filtered. -/
def filter_by_days (now : Int) (results : List (String × List ListingResult))
    (days_back : Int) : Except Unit (List (String × List ListingResult)) :=
  if days_back ≤ 0 then .ok results
  else
    match pySubCheck now (days_back * 86400) with
    | .error e => .error e
    | .ok cutoff => filterSources now cutoff results

/-! ### Global sorter (`format_results`) -/

/-- Flattening of all sources into one `(source name, listing)` sequence, in
mapping order then per-source order. -/
def flattenResults (results : List (String × List ListingResult)) :
    List (String × ListingResult) :=
  results.flatMap (fun p => p.2.map (fun l => (p.1, l)))

/-- `get_sort_key`: `(1, datetime.min)` for an absent or unparseable date
(all such keys are equal; the constant second component is modelled as `0`),
`(0, -timestamp)` for a parsed date.  An exception from `parse_date`
propagates. -/
def get_sort_key (now : Int) (item : String × ListingResult) :
    Except Unit (Nat × Int) :=
  if pyFalsyStr item.2.posted_date then .ok (1, 0)
  else
    match parse_date now (item.2.posted_date.getD "") with
    | .error e => .error e
    | .ok none => .ok (1, 0)
    | .ok (some d) => .ok (0, -d)

/-- Lexicographic comparison of Python key tuples. -/
def keyLE (a b : Nat × Int) : Bool := a.1 < b.1 || (a.1 = b.1 && a.2 ≤ b.2)

/-- Total, pure version of the sort key used to state properties of a sort
run in which no key computation raised; the fallback value is never reached
in such a run. -/
def sortKeyFn (now : Int) (item : String × ListingResult) : Nat × Int :=
  match get_sort_key now item with
  | .ok k => k
  | .error _ => (1, 0)

/-- `mapE f l`: the key-computation loop (CPython's `list.sort(key=...)`
computes every key before reordering; the first raised exception
propagates and nothing is reordered). -/
def mapE (f : α → Except Unit β) : List α → Except Unit (List β)
  | [] => .ok []
  | x :: xs =>
    match f x with
    | .error e => .error e
    | .ok y =>
      match mapE f xs with
      | .error e => .error e
      | .ok ys => .ok (y :: ys)

/-- The decorate–stable-sort–undecorate pipeline of `format_results`:
flatten, compute every sort key, stable-sort by key, strip keys.  Python's
Timsort is stable, so its output coincides with any stable sort with
respect to the same key order; it is modelled by `List.mergeSort`. -/
def sortResults (now : Int) (results : List (String × List ListingResult)) :
    Except Unit (List (String × ListingResult)) :=
  match mapE (fun it =>
      match get_sort_key now it with
      | .error e => .error e
      | .ok k => .ok (it, k)) (flattenResults results) with
  | .error e => .error e
  | .ok tagged =>
    .ok ((tagged.mergeSort (fun a b => keyLE a.2 b.2)).map Prod.fst)

/-! ## Theorems -/

/-! ### Helper lemmas about the string primitives -/

theorem isSubstr_iff_middle (nd l : List Char) : isSubstr nd l = true ↔ nd <:+: l := by
  induction l with
  | nil => simp [isSubstr, List.isEmpty_iff]
  | cons c t ih =>
    simp [isSubstr, List.infix_cons_iff, ih]

theorem infix_dropWhile_of_no_space {nd l : List Char} (hne : nd ≠ [])
    (hnd : ∀ c ∈ nd, pyIsSpace c = false) (h : nd <:+: l) :
    nd <:+: l.dropWhile pyIsSpace := by
  induction l with
  | nil => simpa using h
  | cons c t ih =>
    rw [List.dropWhile_cons]
    split
    · rename_i hc
      rcases List.infix_cons_iff.mp h with hp | hi
      · obtain ⟨n0, nd', rfl⟩ := List.exists_cons_of_ne_nil hne
        obtain ⟨r, hr⟩ := hp
        have hn0 : n0 = c := by
          have := hr
          simp only [List.cons_append] at this
          exact (List.cons.injEq _ _ _ _ ▸ this).1
        have := hnd n0 (List.mem_cons_self _ _)
        rw [hn0, hc] at this
        exact absurd this (by simp)
      · exact ih hi
    · exact h

theorem infix_pyStripL_of_no_space {nd l : List Char} (hne : nd ≠ [])
    (hnd : ∀ c ∈ nd, pyIsSpace c = false) (h : nd <:+: l) :
    nd <:+: pyStripL l := by
  unfold pyStripL
  have h1 := infix_dropWhile_of_no_space hne hnd h
  have h2 : nd.reverse <:+: (l.dropWhile pyIsSpace).reverse :=
    List.reverse_infix.mpr h1
  have h3 : nd.reverse <:+: ((l.dropWhile pyIsSpace).reverse).dropWhile pyIsSpace :=
    infix_dropWhile_of_no_space (by simpa using hne) (by simpa using hnd) h2
  have h4 := List.reverse_infix.mpr h3
  simpa using h4

theorem pyLowerChar_of_space {c : Char} (h : pyIsSpace c = true) :
    pyLowerChar c = c := by
  simp only [pyIsSpace, Bool.or_eq_true, decide_eq_true_eq] at h
  rcases h with ((((h | h) | h) | h) | h) | h <;> subst h <;> decide

/-- A character whose lowercasing is `n` or `u` is not whitespace. -/
theorem not_space_of_lower_nu {c : Char} (h : pyLowerChar c = 'n' ∨ pyLowerChar c = 'u') :
    pyIsSpace c = false := by
  by_contra hc
  have hsp : pyIsSpace c = true := by
    cases hx : pyIsSpace c
    · exact absurd hx hc
    · rfl
  have := pyLowerChar_of_space hsp
  rcases h with h | h <;> rw [this] at h <;> subst h <;> simp [pyIsSpace] at hsp

/-- C1 counterexample: with the single active adapter `HifiTorget` and the
whitespace-only query `"   "`, `search_all` returns the empty mapping, so
its key set is not the active adapter set — the claim's "including an empty
or whitespace-only query" fails on the early-return guard of `search_all`. -/
theorem c1_blank_query_counterexample :
    (search_all [("HifiTorget", fun _ => SOutcome.ok [])] "   ").map Prod.fst
      ≠ ["HifiTorget"] := by
  decide

/-- C1 (amended): for every query whose stripped form is nonempty, the
mapping returned by `search_all` has exactly the active adapter names as its
keys, in adapter order, regardless of per-source outcomes; a blank or
whitespace-only query instead short-circuits to an empty mapping. -/
theorem c1_keys_eq_active_adapters
    (scrapers : List (String × (String → SOutcome))) (query : String)
    (h : pyStripS query ≠ "") :
    (search_all scrapers query).map Prod.fst = scrapers.map Prod.fst := by
  unfold search_all
  rw [if_neg h, List.map_map]
  rfl

theorem c1_keys_eq_active_adapters_witness :
    pyStripS "hegel h90" ≠ "" ∧
      (search_all [("HifiTorget", fun _ => SOutcome.ok []),
        ("Blocket", fun _ => SOutcome.exn)] "hegel h90").map Prod.fst
        = ["HifiTorget", "Blocket"] :=
  ⟨by decide,
    c1_keys_eq_active_adapters
      [("HifiTorget", fun _ => SOutcome.ok []), ("Blocket", fun _ => SOutcome.exn)]
      "hegel h90" (by decide)⟩

/-- C2: if one adapter's task completes with a raised exception or a
timeout, `search_all` still returns the full mapping: the failed source is
recorded with the empty sequence and every other source's entry is exactly
the collected outcome of its own task; in particular an adapter whose task
returned a result list keeps exactly that list. -/
theorem c2_single_failure_isolated
    (pre post : List (String × (String → SOutcome))) (n : String)
    (f : String → SOutcome) (query : String)
    (h : pyStripS query ≠ "")
    (hf : f (pyStripS query) = SOutcome.exn ∨ f (pyStripS query) = SOutcome.timeout) :
    search_all (pre ++ (n, f) :: post) query
        = pre.map (fun p => (p.1, collectOutcome (p.2 (pyStripS query))))
          ++ (n, ([] : List ListingResult))
          :: post.map (fun p => (p.1, collectOutcome (p.2 (pyStripS query)))) ∧
      (∀ m g rs, (m, g) ∈ pre ++ post → g (pyStripS query) = SOutcome.ok rs →
        (m, rs) ∈ search_all (pre ++ (n, f) :: post) query) := by
  constructor
  · unfold search_all
    rw [if_neg h, List.map_append, List.map_cons]
    dsimp only
    rcases hf with hf | hf <;> rw [hf] <;> rfl
  · intro m g rs hmem hok
    unfold search_all
    rw [if_neg h]
    have : (m, rs) = (fun p : String × (String → SOutcome) =>
        (p.1, collectOutcome (p.2 (pyStripS query)))) (m, g) := by
      simp [hok, collectOutcome]
    rw [this]
    apply List.mem_map_of_mem
    rcases List.mem_append.mp hmem with hm | hm
    · exact List.mem_append.mpr (Or.inl hm)
    · exact List.mem_append.mpr (Or.inr (List.mem_cons_of_mem _ hm))

theorem c2_single_failure_isolated_witness :
    search_all [("HifiTorget", fun _ => SOutcome.ok []),
        ("Blocket", fun _ => SOutcome.exn)] "amp"
      = [("HifiTorget", []), ("Blocket", [])] ∧
    (("HifiTorget", ([] : List ListingResult)) ∈
      search_all [("HifiTorget", fun _ => SOutcome.ok []),
        ("Blocket", fun _ => SOutcome.exn)] "amp") := by
  have h := c2_single_failure_isolated
    [("HifiTorget", fun _ => SOutcome.ok [])] [] "Blocket"
    (fun _ => SOutcome.exn) "amp" (by decide) (Or.inl rfl)
  exact ⟨h.1, h.2 "HifiTorget" (fun _ => SOutcome.ok []) [] (by simp) rfl⟩

/-- C4: the include-list `["facebook"]` against the registry activates
exactly `["Facebook Marketplace"]`, and a user token matches a source name
iff it equals the full name case-insensitively or equals one
whitespace-delimited word of the name. -/
theorem c4_include_facebook_partial_token :
    resolveInclude registryNames ["facebook"] = ["Facebook Marketplace"] ∧
      (∀ t n : String, match_site_name t n = true ↔
        (String.mk (pyLower (toL t)) = String.mk (pyLower (toL n)) ∨
          String.mk (pyLower (toL t)) ∈ pySplit (String.mk (pyLower (toL n))))) := by
  constructor
  · decide
  · intro t n
    simp [match_site_name, List.contains_iff_exists_mem_beq]

/-- C5: excluding `["Tradera", "Facebook"]` from the registry activates
exactly `["Blocket", "HifiTorget"]`, and for every registry and exclude
list the active set is a sublist of the registry (registry order is
preserved, matched adapters removed). -/
theorem c5_exclude_registry_order :
    resolveExclude registryNames ["Tradera", "Facebook"] = ["Blocket", "HifiTorget"] ∧
      ∀ (reg ex : List String), (resolveExclude reg ex).Sublist reg := by
  refine ⟨by decide, fun reg ex => ?_⟩
  unfold resolveExclude
  exact List.filter_sublist reg

/-- C8: a non-positive `days_back` disables the recency filter:
`filter_by_days` returns its input unchanged (and raises nothing),
before any cutoff arithmetic is attempted. -/
theorem c8_nonpositive_days_noop (now : Int)
    (results : List (String × List ListingResult)) (days_back : Int)
    (h : days_back ≤ 0) :
    filter_by_days now results days_back = .ok results := by
  unfold filter_by_days
  rw [if_pos h]

theorem c8_nonpositive_days_noop_witness :
    filter_by_days 0 [("HifiTorget",
        [⟨"t", none, "u", none, some "junk", none, none⟩])] 0
      = .ok [("HifiTorget", [⟨"t", none, "u", none, some "junk", none, none⟩])] ∧
    filter_by_days 0 [("HifiTorget",
        [⟨"t", none, "u", none, some "junk", none, none⟩])] (-5)
      = .ok [("HifiTorget", [⟨"t", none, "u", none, some "junk", none, none⟩])] :=
  ⟨c8_nonpositive_days_noop 0 _ 0 (by decide),
    c8_nonpositive_days_noop 0 _ (-5) (by decide)⟩

/-- C10: any input whose lowercase form contains the two-letter substring
`nu` anywhere (e.g. Swedish month names as in `17 januari 2024`, or
`5 minuter sedan`) makes `parse_date` return the current instant: the "now"
family tests substring containment, so no later family is ever attempted. -/
theorem c10_nu_substring_returns_now (s : String) (now : Int)
    (h : isSubstr (toL "nu") (pyLower (toL s)) = true) :
    parse_date now s = .ok (some now) := by
  have hnu : toL "nu" = ['n', 'u'] := rfl
  have hs : s ≠ "" := by
    rintro rfl
    simp [toL, pyLower, isSubstr, hnu] at h
  have hinf : toL "nu" <:+: List.map pyLowerChar (toL s) :=
    (isSubstr_iff_middle _ _).mp h
  obtain ⟨a, b, hab⟩ := hinf
  have hab' : List.map pyLowerChar (toL s) = a ++ (toL "nu" ++ b) := by
    rw [← hab]; simp
  obtain ⟨l1, l2, hl, -, hfb⟩ := List.map_eq_append_iff.mp hab'
  obtain ⟨m, b', hl2, hfm, -⟩ := List.map_eq_append_iff.mp hfb
  rw [hnu] at hfm
  obtain ⟨c1, m1, rfl, hc1, hm1⟩ := List.map_eq_cons_iff.mp hfm
  obtain ⟨c2, m2, rfl, hc2, hm2⟩ := List.map_eq_cons_iff.mp hm1
  have hm2nil : m2 = [] := List.map_eq_nil_iff.mp hm2
  subst hm2nil
  have hmInf : [c1, c2] <:+: toL s := ⟨l1, b', by rw [hl, hl2]; simp⟩
  have hnd : ∀ c ∈ [c1, c2], pyIsSpace c = false := by
    intro c hc
    rcases List.mem_cons.mp hc with rfl | hc
    · exact not_space_of_lower_nu (Or.inl hc1)
    · rcases List.mem_cons.mp hc with rfl | hc
      · exact not_space_of_lower_nu (Or.inr hc2)
      · simp at hc
  have hstrip : [c1, c2] <:+: pyStripL (toL s) :=
    infix_pyStripL_of_no_space (by simp) hnd hmInf
  have hlow : toL "nu" <:+: pyLower (pyStripL (toL s)) := by
    have hmap := hstrip.map pyLowerChar
    rw [hnu]
    simpa [pyLower, hc1, hc2] using hmap
  have hfinal : isSubstr (toL "nu") (pyLower (pyStripL (toL s))) = true :=
    (isSubstr_iff_middle _ _).mpr hlow
  unfold parse_date parseStripped
  rw [if_neg hs, if_pos (by simp [hfinal])]

theorem c10_nu_substring_returns_now_witness :
    isSubstr (toL "nu") (pyLower (toL "17 januari 2024")) = true ∧
      parse_date 0 "17 januari 2024" = .ok (some 0) :=
  ⟨by decide, c10_nu_substring_returns_now "17 januari 2024" 0 (by decide)⟩

/-- C3: the four fixed probes of the date normalizer.  `"2024-10-15"` is
October 15 2024 at midnight; `"3 days ago"` is now minus three days
truncated to midnight (given that the subtraction stays in the representable
datetime range); `"22 sep"`, evaluated at an instant strictly before
September 22 of the current year, is September 22 of the previous year; and
`"not a date"` is the unparseable sentinel. -/
theorem c3_fixed_probes (now : Int)
    (hlo : pyMinDT + 259200 ≤ now) (hhi : now ≤ pyMaxDT) :
    parse_date now "2024-10-15" = .ok (some (mkDT 2024 10 15)) ∧
    parse_date now "3 days ago" = .ok (some (truncDay (now - 3 * 86400))) ∧
    (2 ≤ yearOf now → yearOf now ≤ 9999 → now < mkDT (yearOf now) 9 22 →
      parse_date now "22 sep" = .ok (some (mkDT (yearOf now - 1) 9 22))) ∧
    parse_date now "not a date" = .ok none := by
  have hmin : pyMinDT = -62135596800 := by decide
  have hmax : pyMaxDT = 253402300799 := by decide
  refine ⟨rfl, ?_, ?_, rfl⟩
  · have h1 : parse_date now "3 days ago" =
        (match pySubCheck now (Int.ofNat 3 * 86400) with
          | .ok r => .ok (some (truncDay r))
          | .error e => .error e) := rfl
    rw [h1]
    unfold pySubCheck
    rw [show (Int.ofNat 3 * 86400 : Int) = 259200 from rfl]
    rw [if_pos]
    · norm_num
    · rw [hmin] at hlo
      rw [hmax] at hhi
      simp only [Bool.and_eq_true, decide_eq_true_eq, hmin, hmax]
      omega
  · intro hy1 hy2 hfut
    have h2 : parse_date now "22 sep" =
        (match (match pyDatetime (yearOf now) (Int.ofNat 9) (Int.ofNat 22) with
                | none => none
                | some dt =>
                  if dt > now then
                    pyDatetime (yearOf now - 1) (Int.ofNat 9) (Int.ofNat 22)
                  else some dt) with
          | some dt => Except.ok (some dt)
          | none => Except.ok (slashResult (toL "22 sep"))) := rfl
    have hval1 : validYMD (yearOf now) 9 22 = true := by
      unfold validYMD
      rw [show daysInMonth (yearOf now) 9 = 30 from by unfold daysInMonth; norm_num]
      simp only [Bool.and_eq_true, decide_eq_true_eq]
      omega
    have hval2 : validYMD (yearOf now - 1) 9 22 = true := by
      unfold validYMD
      rw [show daysInMonth (yearOf now - 1) 9 = 30 from by unfold daysInMonth; norm_num]
      simp only [Bool.and_eq_true, decide_eq_true_eq]
      omega
    have hv1 : pyDatetime (yearOf now) (Int.ofNat 9) (Int.ofNat 22)
        = some (mkDT (yearOf now) 9 22) := by
      unfold pyDatetime
      rw [show (Int.ofNat 9 : Int) = 9 from rfl,
        show (Int.ofNat 22 : Int) = 22 from rfl, if_pos hval1]
    have hv2 : pyDatetime (yearOf now - 1) (Int.ofNat 9) (Int.ofNat 22)
        = some (mkDT (yearOf now - 1) 9 22) := by
      unfold pyDatetime
      rw [show (Int.ofNat 9 : Int) = 9 from rfl,
        show (Int.ofNat 22 : Int) = 22 from rfl, if_pos hval2]
    rw [h2, hv1, hv2]
    simp only [gt_iff_lt, if_pos hfut]

theorem c3_fixed_probes_witness :
    parse_date (mkDT 2026 3 1) "2024-10-15" = .ok (some (mkDT 2024 10 15)) ∧
    parse_date (mkDT 2026 3 1) "3 days ago"
      = .ok (some (truncDay (mkDT 2026 3 1 - 3 * 86400))) ∧
    parse_date (mkDT 2026 3 1) "22 sep"
      = .ok (some (mkDT (yearOf (mkDT 2026 3 1) - 1) 9 22)) ∧
    parse_date (mkDT 2026 3 1) "not a date" = .ok none := by
  have h := c3_fixed_probes (mkDT 2026 3 1) (by decide) (by decide)
  exact ⟨h.1, h.2.1, h.2.2.1 (by decide) (by decide) (by decide), h.2.2.2⟩

/-- C9 counterexample: `parse_date` is not total — on
`"1000000000 days ago"` the quantified relative-offset family matches and
the subtraction leaves the representable datetime range, so the call raises
(`OverflowError` in Python; `timedelta(days=10**9)` exceeds the bound and
the result would fall before `datetime.min`), instead of returning. -/
theorem c9_overflow_counterexample :
    parse_date (mkDT 2026 10 12) "1000000000 days ago" = .error () := by
  rfl

/-- C9 (amended): `parse_date` can only raise through the quantified
relative-offset families ("N days/hours/weeks ago") overflowing the
datetime range: whenever none of those three patterns matches (and `now` is
a representable instant at least one day past `datetime.min`), `parse_date`
returns normally on every input; calendar-invalid numeric values in the
absolute-date families are treated as a non-match and fall through to the
next family rather than raising — e.g. `"2024-13-01"` (month 13: ISO family
falls through, then the slash family finds `24-13-01` whose constructor also
fails) ends at the unparseable sentinel, as does the day-32 probe
`"32 jan"`. -/
theorem c9_no_raise_without_relative_overflow (now : Int) (s : String)
    (hlo : pyMinDT + 86400 ≤ now) (hhi : now ≤ pyMaxDT)
    (hd : matchDaysAgo (pyLower (pyStripL (toL s))) = none)
    (hh : matchHoursAgo (pyLower (pyStripL (toL s))) = none)
    (hw : matchWeeksAgo (pyLower (pyStripL (toL s))) = none) :
    (∃ r, parse_date now s = .ok r) ∧
      parse_date now "2024-13-01" = .ok none ∧
      parse_date (mkDT 2026 10 12) "32 jan" = .ok none := by
  refine ⟨?_, rfl, rfl⟩
  unfold parse_date
  split
  · exact ⟨none, rfl⟩
  · unfold parseStripped
    simp only [hd, hh, hw]
    split
    · exact ⟨_, rfl⟩
    · split
      · exact ⟨_, rfl⟩
      · split
        · have hsub : pySubCheck now 86400 = .ok (now - 86400) := by
            unfold pySubCheck
            rw [if_pos]
            have h1 : pyMinDT = -62135596800 := by decide
            have h2 : pyMaxDT = 253402300799 := by decide
            rw [h1] at hlo
            rw [h2] at hhi
            simp only [Bool.and_eq_true, decide_eq_true_eq, h1, h2]
            omega
          simp only [hsub]
          exact ⟨_, rfl⟩
        · cases hiso : isoResult (pyLower (pyStripL (toL s))) with
          | some dt => simp only [hiso]; exact ⟨_, rfl⟩
          | none =>
            simp only [hiso]
            cases hmon : monthResult now (pyLower (pyStripL (toL s))) with
            | some dt => simp only [hmon]; exact ⟨_, rfl⟩
            | none => simp only [hmon]; exact ⟨_, rfl⟩

theorem c9_no_raise_without_relative_overflow_witness :
    ∃ r, parse_date (mkDT 2026 10 12) "hello world" = .ok r :=
  (c9_no_raise_without_relative_overflow (mkDT 2026 10 12) "hello world"
    (by decide) (by decide) (by decide) (by decide) (by decide)).1

/-- C7 counterexample: for `maxAgeDays = 10^10 > 0` the cutoff computation
`datetime.now() - timedelta(days=days_back)` raises (`OverflowError`), so
`filter_by_days` does not return a mapping at all — in particular not one
with the same key set as its input. -/
theorem c7_cutoff_overflow_counterexample :
    filter_by_days (mkDT 2026 10 12) [("HifiTorget", [])] 10000000000
      = .error () := by
  rfl

/-- The retention rule as the claim states it (a listing with absent or
unparseable date text is retained; one with a normalized date is retained
iff that date is at least the continuous cutoff), written from the spec's
words for comparison with `filter_by_days`. -/
def spec_retained (now cutoff : Int) (l : ListingResult) : Bool :=
  match l.posted_date with
  | none => true
  | some s =>
    if s = "" then true
    else
      match parse_date now s with
      | .ok none => true
      | .ok (some d) => decide (d ≥ cutoff)
      | .error _ => true

theorem keepListing_eq_spec_retained (now cutoff : Int) (l : ListingResult)
    (hx : pyFalsyStr l.posted_date = true ∨
      ∃ v, parse_date now (l.posted_date.getD "") = .ok v) :
    keepListing now cutoff l = .ok (spec_retained now cutoff l) := by
  unfold keepListing spec_retained
  cases hpd : l.posted_date with
  | none => simp [pyFalsyStr]
  | some s =>
    rw [hpd] at hx
    by_cases hse : s = ""
    · subst hse
      simp [pyFalsyStr]
    · rcases hx with hx | ⟨v, hv⟩
      · exact absurd hx (by simp [pyFalsyStr, hse])
      · simp only [Option.getD_some] at hv
        cases v with
        | none => simp [pyFalsyStr, hse, hv]
        | some d => simp [pyFalsyStr, hse, hv]

theorem filterListings_eq_filter (now cutoff : Int) (ls : List ListingResult)
    (hok : ∀ l ∈ ls, pyFalsyStr l.posted_date = true ∨
      ∃ v, parse_date now (l.posted_date.getD "") = .ok v) :
    filterListings now cutoff ls = .ok (ls.filter (spec_retained now cutoff)) := by
  induction ls with
  | nil => rfl
  | cons x xs ih =>
    unfold filterListings
    rw [keepListing_eq_spec_retained now cutoff x (hok x (List.mem_cons_self _ _)),
      ih (fun l hl => hok l (List.mem_cons_of_mem _ hl))]
    simp only [List.filter_cons]

theorem filterSources_eq_map (now cutoff : Int)
    (results : List (String × List ListingResult))
    (hok : ∀ p ∈ results, ∀ l ∈ p.2, pyFalsyStr l.posted_date = true ∨
      ∃ v, parse_date now (l.posted_date.getD "") = .ok v) :
    filterSources now cutoff results
      = .ok (results.map (fun p => (p.1, p.2.filter (spec_retained now cutoff)))) := by
  induction results with
  | nil => rfl
  | cons p ps ih =>
    obtain ⟨name, ls⟩ := p
    unfold filterSources
    rw [filterListings_eq_filter now cutoff ls
      (fun l hl => hok (name, ls) (List.mem_cons_self _ _) l hl)]
    rw [ih (fun q hq l hl => hok q (List.mem_cons_of_mem _ hq) l hl)]
    rfl

/-- C7 (amended): for every `maxAgeDays > 0` such that
`now - maxAgeDays` days stays in the representable datetime range, and for
every source mapping whose listings' date texts are each absent,
unparseable, or parseable (i.e. none makes `parse_date` raise),
`filter_by_days` returns the input mapping with the same key set in the
same order, where each source keeps exactly the listings the claim's
retention rule keeps: absent/unparseable dates always retained, a
normalized date retained iff it is at least the continuous cutoff
`now - maxAgeDays` days. -/
theorem c7_filter_retention (now : Int)
    (results : List (String × List ListingResult)) (days_back : Int)
    (hd : 0 < days_back)
    (hr1 : pyMinDT ≤ now - days_back * 86400)
    (hr2 : now - days_back * 86400 ≤ pyMaxDT)
    (hok : ∀ p ∈ results, ∀ l ∈ p.2, pyFalsyStr l.posted_date = true ∨
      ∃ v, parse_date now (l.posted_date.getD "") = .ok v) :
    filter_by_days now results days_back
        = .ok (results.map (fun p =>
            (p.1, p.2.filter (spec_retained now (now - days_back * 86400))))) ∧
      (results.map (fun p =>
          (p.1, p.2.filter (spec_retained now (now - days_back * 86400))))).map Prod.fst
        = results.map Prod.fst := by
  constructor
  · unfold filter_by_days
    rw [if_neg (by omega)]
    have hcut : pySubCheck now (days_back * 86400) = .ok (now - days_back * 86400) := by
      unfold pySubCheck
      rw [if_pos]
      simp only [Bool.and_eq_true, decide_eq_true_eq]
      exact ⟨hr1, hr2⟩
    rw [hcut]
    exact filterSources_eq_map now _ results hok
  · rw [List.map_map]
    rfl

theorem c7_filter_retention_witness :
    filter_by_days (mkDT 2026 10 12)
        [("HifiTorget",
          [⟨"a", none, "u", none, none, none, none⟩,
           ⟨"b", none, "u", none, some "junk", none, none⟩,
           ⟨"c", none, "u", none, some "2024-10-15", none, none⟩,
           ⟨"d", none, "u", none, some "3 days ago", none, none⟩])] 7
      = .ok [("HifiTorget",
          [⟨"a", none, "u", none, none, none, none⟩,
           ⟨"b", none, "u", none, some "junk", none, none⟩,
           ⟨"d", none, "u", none, some "3 days ago", none, none⟩])] := by
  have h := c7_filter_retention (mkDT 2026 10 12)
    [("HifiTorget",
      [⟨"a", none, "u", none, none, none, none⟩,
       ⟨"b", none, "u", none, some "junk", none, none⟩,
       ⟨"c", none, "u", none, some "2024-10-15", none, none⟩,
       ⟨"d", none, "u", none, some "3 days ago", none, none⟩])] 7
    (by decide) (by decide) (by decide)
    (by
      intro p hp l hl
      simp only [List.mem_singleton] at hp
      subst hp
      simp only [List.mem_cons, List.not_mem_nil, or_false] at hl
      rcases hl with rfl | rfl | rfl | rfl
      · exact Or.inl rfl
      · exact Or.inr ⟨none, rfl⟩
      · exact Or.inr ⟨some (mkDT 2024 10 15), rfl⟩
      · exact Or.inr ⟨some (mkDT 2026 10 9), rfl⟩)
  rw [h.1]
  rfl

/-! ### Helper lemmas for the global sorter -/

theorem keyLE_total (a b : Nat × Int) : keyLE a b || keyLE b a := by
  unfold keyLE
  simp only [Bool.or_eq_true, Bool.and_eq_true, decide_eq_true_eq]
  omega

theorem keyLE_trans (a b c : Nat × Int) (h1 : keyLE a b) (h2 : keyLE b c) :
    keyLE a c := by
  unfold keyLE at h1 h2 ⊢
  simp only [Bool.or_eq_true, Bool.and_eq_true, decide_eq_true_eq] at h1 h2 ⊢
  omega

theorem keyLE_refl (a : Nat × Int) : keyLE a a = true := by
  unfold keyLE
  simp

/-- If the key-computation loop of `sortResults` succeeded, its output is
the flattened list decorated with the (recomputable) sort keys. -/
theorem mapE_sortKey_ok (now : Int) (l : List (String × ListingResult))
    (r : List ((String × ListingResult) × (Nat × Int)))
    (h : mapE (fun it =>
        match get_sort_key now it with
        | .error e => .error e
        | .ok k => .ok (it, k)) l = .ok r) :
    r = l.map (fun it => (it, sortKeyFn now it)) := by
  induction l generalizing r with
  | nil =>
    unfold mapE at h
    cases h
    rfl
  | cons x xs ih =>
    unfold mapE at h
    cases hk : get_sort_key now x with
    | error e =>
      simp only [hk] at h
      exact Except.noConfusion h
    | ok k =>
      simp only [hk] at h
      cases hrest : mapE (fun it =>
          match get_sort_key now it with
          | .error e => .error e
          | .ok k => .ok (it, k)) xs with
      | error e =>
        simp only [hrest] at h
        exact Except.noConfusion h
      | ok ys =>
        simp only [hrest] at h
        cases h
        rw [List.map_cons, ← ih ys hrest]
        have hsk : sortKeyFn now x = k := by
          unfold sortKeyFn
          rw [hk]
        rw [hsk]

/-- C6: the global sort of `format_results`.  For every successful sort run
(no listing's date normalization raised): (1) any listing placed before a
listing with a parseable date itself has a parseable date, and its
normalized date is at least as recent (newest first); hence every listing
with a parseable date comes before every listing with an absent or
unparseable date; (2) the sort is stable: two listings with identical sort
keys (identical normalized dates, or both absent/unparseable) keep their
flatten order, in particular all unparseable/absent-date listings keep
their original flatten order among themselves; (3) the output is a
permutation of the flattened input (nothing dropped or duplicated). -/
theorem c6_sort_order_and_stability (now : Int)
    (results : List (String × List ListingResult))
    (out : List (String × ListingResult))
    (hok : sortResults now results = .ok out) :
    (∀ x y dy, [x, y].Sublist out →
      pyFalsyStr y.2.posted_date = false →
      parse_date now (y.2.posted_date.getD "") = .ok (some dy) →
      ∃ dx, pyFalsyStr x.2.posted_date = false ∧
        parse_date now (x.2.posted_date.getD "") = .ok (some dx) ∧ dy ≤ dx) ∧
    (∀ x y, get_sort_key now x = get_sort_key now y →
      [x, y].Sublist (flattenResults results) → [x, y].Sublist out) ∧
    out.Perm (flattenResults results) := by
  unfold sortResults at hok
  cases hmap : mapE (fun it =>
      match get_sort_key now it with
      | .error e => .error e
      | .ok k => .ok (it, k)) (flattenResults results) with
  | error e => rw [hmap] at hok; cases hok
  | ok tagged =>
    rw [hmap] at hok
    cases hok
    have htag : tagged
        = (flattenResults results).map (fun it => (it, sortKeyFn now it)) :=
      mapE_sortKey_ok now _ tagged hmap
    have hmemkey : ∀ p ∈ tagged.mergeSort (fun a b => keyLE a.2 b.2),
        p.2 = sortKeyFn now p.1 := by
      intro p hp
      have hp' : p ∈ tagged := List.mem_mergeSort.mp hp
      rw [htag] at hp'
      obtain ⟨it, -, rfl⟩ := List.mem_map.mp hp'
      rfl
    have hsorted : (tagged.mergeSort (fun a b => keyLE a.2 b.2)).Pairwise
        (fun a b => keyLE a.2 b.2) :=
      List.sorted_mergeSort (fun a b c => keyLE_trans a.2 b.2 c.2)
        (fun a b => keyLE_total a.2 b.2) tagged
    have hpw : ((tagged.mergeSort (fun a b => keyLE a.2 b.2)).map Prod.fst).Pairwise
        (fun x y => keyLE (sortKeyFn now x) (sortKeyFn now y) = true) := by
      rw [List.pairwise_map]
      refine hsorted.imp_of_mem ?_
      intro a b ha hb hab
      rw [hmemkey a ha, hmemkey b hb] at hab
      exact hab
    refine ⟨?_, ?_, ?_⟩
    · intro x y dy hsub hfalsy hparse
      have hRel := List.pairwise_iff_forall_sublist.mp hpw hsub
      have hky : sortKeyFn now y = (0, -dy) := by
        unfold sortKeyFn get_sort_key
        rw [hfalsy, hparse]
        rfl
      rw [hky] at hRel
      by_cases hfx : pyFalsyStr x.2.posted_date = true
      · exfalso
        have hkx : sortKeyFn now x = (1, 0) := by
          unfold sortKeyFn get_sort_key
          rw [hfx]
          rfl
        rw [hkx] at hRel
        simp [keyLE] at hRel
      · rw [Bool.not_eq_true] at hfx
        cases hpx : parse_date now (x.2.posted_date.getD "") with
        | error e =>
          exfalso
          have hkx : sortKeyFn now x = (1, 0) := by
            unfold sortKeyFn get_sort_key
            rw [hfx, hpx]
            rfl
          rw [hkx] at hRel
          simp [keyLE] at hRel
        | ok v =>
          cases v with
          | none =>
            exfalso
            have hkx : sortKeyFn now x = (1, 0) := by
              unfold sortKeyFn get_sort_key
              rw [hfx, hpx]
              rfl
            rw [hkx] at hRel
            simp [keyLE] at hRel
          | some dx =>
            have hkx : sortKeyFn now x = (0, -dx) := by
              unfold sortKeyFn get_sort_key
              rw [hfx, hpx]
              rfl
            rw [hkx] at hRel
            simp only [keyLE, Bool.or_eq_true, Bool.and_eq_true,
              decide_eq_true_eq] at hRel
            exact ⟨dx, hfx, rfl, by omega⟩
    · intro x y hkey hsubflat
      have hskeq : sortKeyFn now x = sortKeyFn now y := by
        unfold sortKeyFn
        rw [hkey]
      have hsubtag : [(x, sortKeyFn now x), (y, sortKeyFn now y)].Sublist tagged := by
        rw [htag]
        exact hsubflat.map (fun it => (it, sortKeyFn now it))
      have hpairle : (fun a b : (String × ListingResult) × (Nat × Int) =>
          keyLE a.2 b.2) (x, sortKeyFn now x) (y, sortKeyFn now y) = true := by
        dsimp only
        rw [hskeq]
        exact keyLE_refl _
      have hstable := List.sublist_mergeSort
        (fun (a b c : (String × ListingResult) × (Nat × Int)) =>
          keyLE_trans a.2 b.2 c.2)
        (fun (a b : (String × ListingResult) × (Nat × Int)) =>
          keyLE_total a.2 b.2)
        (List.pairwise_pair.mpr hpairle) hsubtag
      have := hstable.map Prod.fst
      simpa using this
    · have hperm2 := (List.mergeSort_perm tagged
        (fun a b => keyLE a.2 b.2)).map Prod.fst
      have htagfst : tagged.map Prod.fst = flattenResults results := by
        rw [htag, List.map_map]
        exact List.map_id'' (fun x => rfl) _
      exact hperm2.trans (by rw [htagfst])

theorem c6_sort_order_and_stability_witness :
    sortResults (mkDT 2026 10 12)
        [("B", [⟨"z", none, "u", none, some "3 days ago", none, none⟩,
                ⟨"y", none, "u", none, some "2024-10-15", none, none⟩]),
         ("A", [⟨"x", none, "u", none, none, none, none⟩,
                ⟨"w", none, "u", none, some "junk", none, none⟩])]
      = .ok [("B", ⟨"z", none, "u", none, some "3 days ago", none, none⟩),
             ("B", ⟨"y", none, "u", none, some "2024-10-15", none, none⟩),
             ("A", ⟨"x", none, "u", none, none, none, none⟩),
             ("A", ⟨"w", none, "u", none, some "junk", none, none⟩)] ∧
    ([("B", ⟨"z", none, "u", none, some "3 days ago", none, none⟩),
      ("B", ⟨"y", none, "u", none, some "2024-10-15", none, none⟩),
      ("A", ⟨"x", none, "u", none, none, none, none⟩),
      ("A", ⟨"w", none, "u", none, some "junk", none, none⟩)] :
        List (String × ListingResult)).Perm
      (flattenResults
        [("B", [⟨"z", none, "u", none, some "3 days ago", none, none⟩,
                ⟨"y", none, "u", none, some "2024-10-15", none, none⟩]),
         ("A", [⟨"x", none, "u", none, none, none, none⟩,
                ⟨"w", none, "u", none, some "junk", none, none⟩])]) := by
  have hmap : mapE (fun it =>
      match get_sort_key (mkDT 2026 10 12) it with
      | .error e => .error e
      | .ok k => .ok (it, k))
      (flattenResults
        [("B", [⟨"z", none, "u", none, some "3 days ago", none, none⟩,
                ⟨"y", none, "u", none, some "2024-10-15", none, none⟩]),
         ("A", [⟨"x", none, "u", none, none, none, none⟩,
                ⟨"w", none, "u", none, some "junk", none, none⟩])])
      = .ok [(("B", ⟨"z", none, "u", none, some "3 days ago", none, none⟩),
                (0, -mkDT 2026 10 9)),
             (("B", ⟨"y", none, "u", none, some "2024-10-15", none, none⟩),
                (0, -mkDT 2024 10 15)),
             (("A", ⟨"x", none, "u", none, none, none, none⟩), (1, 0)),
             (("A", ⟨"w", none, "u", none, some "junk", none, none⟩), (1, 0))] :=
    rfl
  have hms : ([(("B", ⟨"z", none, "u", none, some "3 days ago", none, none⟩),
                  ((0 : Nat), (-mkDT 2026 10 9 : Int))),
               (("B", ⟨"y", none, "u", none, some "2024-10-15", none, none⟩),
                  (0, -mkDT 2024 10 15)),
               (("A", ⟨"x", none, "u", none, none, none, none⟩), (1, 0)),
               (("A", ⟨"w", none, "u", none, some "junk", none, none⟩), (1, 0))] :
        List ((String × ListingResult) × (Nat × Int))).mergeSort
          (fun a b => keyLE a.2 b.2)
      = [(("B", ⟨"z", none, "u", none, some "3 days ago", none, none⟩),
            ((0 : Nat), (-mkDT 2026 10 9 : Int))),
         (("B", ⟨"y", none, "u", none, some "2024-10-15", none, none⟩),
            (0, -mkDT 2024 10 15)),
         (("A", ⟨"x", none, "u", none, none, none, none⟩), (1, 0)),
         (("A", ⟨"w", none, "u", none, some "junk", none, none⟩), (1, 0))] :=
    List.mergeSort_of_sorted (by decide)
  have hsr : sortResults (mkDT 2026 10 12)
      [("B", [⟨"z", none, "u", none, some "3 days ago", none, none⟩,
              ⟨"y", none, "u", none, some "2024-10-15", none, none⟩]),
       ("A", [⟨"x", none, "u", none, none, none, none⟩,
              ⟨"w", none, "u", none, some "junk", none, none⟩])]
      = .ok [("B", ⟨"z", none, "u", none, some "3 days ago", none, none⟩),
             ("B", ⟨"y", none, "u", none, some "2024-10-15", none, none⟩),
             ("A", ⟨"x", none, "u", none, none, none, none⟩),
             ("A", ⟨"w", none, "u", none, some "junk", none, none⟩)] := by
    unfold sortResults
    simp only [hmap]
    rw [hms]
    rfl
  exact ⟨hsr, (c6_sort_order_and_stability (mkDT 2026 10 12) _ _ hsr).2.2⟩

end AudioSearch
